import Mathlib

/-!
Verification of `ambari-server/src/main/python/ambari_server/serverConfiguration.py`.

The module is shallowly embedded: Python strings become Lean `String`
(with character-level operations going through `String.data : List Char`),
the `Properties` key-value view becomes an ordered association list, and
the external world touched by the password workflow (JDK discovery, the
credential-provider subprocess, temporary files, interactive input) is an
explicit environment record threaded through the functions.
-/

namespace ServerConfiguration

/-- A properties map: ordered association list of key/value pairs,
mirroring the ordered `Properties` view used by `serverConfiguration.py`.
A lookup of an absent key yields `none` (falsy in Python, like `None`/`""`). -/
def Props : Type := List (String × String)

/-- `properties.get_property(key)` / `properties[key]`: first binding of `key`. -/
def get_property (ps : Props) (k : String) : Option String :=
  (List.find? (fun p => p.1 == k) ps).map Prod.snd

/-- Python truthiness of an optional string: `None` and `""` are falsy. -/
def truthy : Option String → Bool
  | none => false
  | some s => s ≠ ""

/- Property-name constants from serverConfiguration.py. -/

def JDBC_DATABASE_PROPERTY : String := "server.jdbc.database"
def JDBC_URL_PROPERTY : String := "server.jdbc.url"
def PERSISTENCE_TYPE_PROPERTY : String := "server.persistence.type"
def SECURITY_IS_ENCRYPTION_ENABLED : String := "security.passwords.encryption.enabled"
def JDBC_PASSWORD_PROPERTY : String := "server.jdbc.user.passwd"
def LDAP_MGR_PASSWORD_PROPERTY : String := "authentication.ldap.managerPassword"
def SSL_TRUSTSTORE_PASSWORD_PROPERTY : String := "ssl.trustStore.password"
def JDBC_RCA_PASSWORD_ALIAS : String := "ambari.db.password"
def LDAP_MGR_PASSWORD_ALIAS : String := "ambari.ldap.manager.password"
def SSL_TRUSTSTORE_PASSWORD_ALIAS : String := "ambari.ssl.trustStore.password"

/-- `ServerDatabaseType`: `internal = 0`, `remote = 1`. -/
inductive ServerDatabaseType where
  | internal
  | remote
deriving DecidableEq, Repr

/-- `ServerDatabaseEntry(name, title, db_type, aliases)`. -/
structure ServerDatabaseEntry where
  name : String
  title : String
  dbtype : ServerDatabaseType
  aliases : List String
deriving DecidableEq, Repr

/-- `ServerDatabaseEntry.__eq__` against a string:
`self.name == other or other in self.__aliases`. -/
def entryEqString (e : ServerDatabaseEntry) (s : String) : Bool :=
  e.name == s || e.aliases.contains s

/-- `ServerDatabaseEntry.__eq__` against another entry:
`self.name == other.name and self.dbtype == other.dbtype`. -/
def entryEqEntry (a b : ServerDatabaseEntry) : Bool :=
  a.name == b.name && a.dbtype == b.dbtype

def sdePostgres : ServerDatabaseEntry :=
  ⟨"postgres", "Postgres", .remote, []⟩
def sdeOracle : ServerDatabaseEntry :=
  ⟨"oracle", "Oracle", .remote, []⟩
def sdeMysql : ServerDatabaseEntry :=
  ⟨"mysql", "MySQL", .remote, []⟩
def sdeMssql : ServerDatabaseEntry :=
  ⟨"mssql", "MSSQL", .remote, []⟩
def sdeDerby : ServerDatabaseEntry :=
  ⟨"derby", "Derby", .remote, []⟩
def sdeSqlanywhere : ServerDatabaseEntry :=
  ⟨"sqlanywhere", "SQL Anywhere", .remote, []⟩
def sdePostgresInternal : ServerDatabaseEntry :=
  ⟨"postgres", "Embedded Postgres", .internal, ["embedded"]⟩

/-- The `ServerDatabases` class attributes that are `ServerDatabaseEntry`s,
in declaration order. -/
def serverDatabasesList : List ServerDatabaseEntry :=
  [sdePostgres, sdeOracle, sdeMysql, sdeMssql, sdeDerby, sdeSqlanywhere,
   sdePostgresInternal]

/-- `ServerDatabases.match(name)`: first registered entry equal (by name or
alias) to the string `name`, else `None`. -/
def serverDatabasesMatch (name : String) : Option ServerDatabaseEntry :=
  serverDatabasesList.find? (fun e => entryEqString e name)

/-- Python 2 `str.lower()` on a character (ASCII case fold). -/
def pyLowerChar (c : Char) : Char := if c.isUpper then c.toLower else c

/-- Python 2 `str.lower()`. -/
def pyLower (l : List Char) : List Char := l.map pyLowerChar

/-- Python substring containment `needle in haystack` (for nonempty needles). -/
def strContains (haystack needle : List Char) : Bool :=
  haystack.tails.any (fun t => needle.isPrefixOf t)

/-- `get_db_type(properties)` from serverConfiguration.py (lines 593-623):
explicit `server.jdbc.database` match (with the local/postgres substitution),
then JDBC-URL substring matching in the fixed chain postgres, oracle, mysql,
mssql, derby, sqlanywhere, then the `persistence_type == "local"` fallback
to the embedded postgres entry. -/
def get_db_type (props : Props) : Option ServerDatabaseEntry :=
  let persistence_type := get_property props PERSISTENCE_TYPE_PROPERTY
  let dbProp := get_property props JDBC_DATABASE_PROPERTY
  let db_type0 : Option ServerDatabaseEntry :=
    if truthy dbProp then
      match serverDatabasesMatch (dbProp.getD "") with
      | some e =>
          if entryEqEntry e sdePostgres && (persistence_type == some "local") then
            some sdePostgresInternal
          else some e
      | none => none
    else none
  let urlProp := get_property props JDBC_URL_PROPERTY
  let db_type1 : Option ServerDatabaseEntry :=
    if truthy urlProp && db_type0.isNone then
      let jdbc_url := pyLower (urlProp.getD "").data
      if strContains jdbc_url sdePostgres.name.data then some sdePostgres
      else if strContains jdbc_url sdeOracle.name.data then some sdeOracle
      else if strContains jdbc_url sdeMysql.name.data then some sdeMysql
      else if strContains jdbc_url sdeMssql.name.data then some sdeMssql
      else if strContains jdbc_url sdeDerby.name.data then some sdeDerby
      else if strContains jdbc_url sdeSqlanywhere.name.data then some sdeSqlanywhere
      else none
    else db_type0
  if (persistence_type == some "local") && db_type1.isNone then
    some sdePostgresInternal
  else db_type1

/-- Spec-side description of step 2 of `resolve` ("lowercase the JDBC URL and
test substring containment against each known database name in a fixed
priority order; first match wins"), used to compare `get_db_type` against
the wording of the spec. -/
def urlFirstMatch (u : String) : Option ServerDatabaseEntry :=
  ([sdePostgres, sdeOracle, sdeMysql, sdeMssql, sdeDerby, sdeSqlanywhere].find?
    (fun e => strContains (pyLower u.data) e.name.data))

/-- Character class `[\w\.]` of the alias regex: Python 2 `\w` on a byte
string without `re.UNICODE` is `[a-zA-Z0-9_]`, plus the literal dot. -/
def isAliasWordChar (c : Char) : Bool :=
  c.isAlphanum || c == '_' || c == '.'

/-- `is_alias_string(passwdStr)` (lines 711-718): whether
`re.compile("\$\x7balias=[\w\.]+\x7d").match(passwdStr)` succeeds, i.e. the
string starts with the literal `$\x7balias=`, then one or more word
characters or dots, then `\x7d` (trailing characters are not constrained,
since `re.match` only anchors at the start). After the 8-character literal
prefix, the regex accepts iff the maximal run of `[\w\.]` characters is
nonempty and is followed immediately by a closing brace: a shorter run
would leave a word character where the regex demands `\x7d`. -/
def is_alias_string (passwdStr : String) : Bool :=
  let l := passwdStr.data
  "$\x7balias=".data.isPrefixOf l &&
    (let rest := l.drop 8
     decide (rest.takeWhile isAliasWordChar ≠ []) &&
       ((rest.dropWhile isAliasWordChar).head? == some '\x7d'))

/-- `get_alias_string(alias)` (lines 720-721): `"$\x7balias=" + alias + "\x7d"`. -/
def get_alias_string (aliasName : String) : String :=
  "$\x7balias=" ++ aliasName ++ "\x7d"

/-- `get_alias_from_alias_string(aliasStr)` (lines 723-724): the Python
slice `aliasStr[8:-1]` — drop the first 8 characters and the last one. -/
def get_alias_from_alias_string (aliasStr : String) : String :=
  String.mk ((aliasStr.data.drop 8).dropLast)

/-- The pattern that claim C2 (and the prose of spec 4.3) ascribes to
`is_alias_string`: the literal prefix `$\x7balias=` followed by one or more
word characters or dots, anchored at the start — with no requirement of a
closing brace. Stated from the wording of the spec, for comparison with the
`is_alias_string` of the source. -/
def claimedAliasPattern (s : String) : Bool :=
  "$\x7balias=".data.isPrefixOf s.data &&
    (match s.data.drop 8 with
     | c :: _ => isAliasWordChar c
     | [] => false)

/-- `get_is_secure(properties)` (lines 539-542):
`isSecure and isSecure.lower() == "true"` on the
`security.passwords.encryption.enabled` property. -/
def get_is_secure (props : Props) : Bool :=
  match get_property props SECURITY_IS_ENCRYPTION_ENABLED with
  | none => false
  | some s => s ≠ "" && (String.mk (pyLower s.data) == "true")

/-- A Python value returned by the password functions: a string, an int
error code, or `None` (a fall-through return). -/
inductive PwResult where
  | str (s : String)
  | int (n : Int)
  | pynone
deriving DecidableEq, Repr

/-- Python truthiness of a `PwResult` (`if not password:`). -/
def pwTruthy : PwResult → Bool
  | .str s => s ≠ ""
  | .int n => n ≠ 0
  | .pynone => false

/-- Observable outcome of one invocation of the external
credential-provider GET command: its exit code and the content of the
temporary hand-off file after the command ran (the file is created empty
before the call, so this is `""` whenever the tool wrote nothing). -/
structure GetOutcome where
  retcode : Int
  fileContent : String
deriving DecidableEq, Repr

/-- The external world of the password workflow: JDK discovery, the
credential-provider subprocess (GET keyed by alias and master-key
argument, PUT by alias/password/master-key), the filesystem probe for the
persisted master-key file, and the interactively entered master keys. -/
structure Env where
  jdkFound : Bool
  getOutcome : String → String → GetOutcome
  putRetcode : String → String → String → Int
  masterKeyFile : Option String
  inputKeys : List String

/-- Result of `read_passwd_for_alias` together with its side effects:
whether the GET subprocess was invoked and whether the temporary hand-off
file was deleted before returning. -/
structure ReadOutcome where
  result : PwResult
  subprocessCalled : Bool
  tempFileRemoved : Bool
deriving DecidableEq, Repr

/-- `masterKey is None or masterKey == ""` substitution with the literal
`"None"` (lines 744-745 and 784-785). -/
def resolveMasterKeyArg : Option String → String
  | none => "None"
  | some k => if k == "" then "None" else k

/-- `read_passwd_for_alias(alias, masterKey)` (lines 726-760): for a truthy
alias, fail with `1` when no JDK is found; otherwise create the empty temp
file, run the GET command, read the temp file only on exit code 0 (the
initialized `passwd = ""` is kept otherwise), delete the temp file, and
return `passwd`. A falsy alias returns `None`. -/
def read_passwd_for_alias (env : Env) (aliasName : String)
    (masterKey : Option String) : ReadOutcome :=
  if aliasName ≠ "" then
    if env.jdkFound then
      let oc := env.getOutcome aliasName (resolveMasterKeyArg masterKey)
      let passwd := if oc.retcode ≠ 0 then "" else oc.fileContent
      ⟨.str passwd, true, true⟩
    else ⟨.int 1, false, false⟩
  else ⟨.pynone, false, false⟩

/-- `save_passwd_for_alias(alias, passwd, masterKey)` (lines 775-794): for
truthy alias and password, `1` when no JDK is found, else the PUT
exit code of the PUT command; otherwise a fall-through `None`. -/
def save_passwd_for_alias (env : Env) (aliasName passwd : String)
    (masterKey : Option String) : PwResult :=
  if aliasName ≠ "" && passwd ≠ "" then
    if env.jdkFound then
      .int (env.putRetcode aliasName passwd (resolveMasterKeyArg masterKey))
    else .int 1
  else .pynone

/-- The alias-discovery block of `get_original_master_key` (lines 838-852):
the first of the three password properties whose value is truthy and
alias-encoded determines the alias used for validation. -/
def masterKeyCheckAlias (props : Props) : Option String :=
  let check := fun (key aName : String) =>
    match get_property props key with
    | some p => if p ≠ "" && is_alias_string p then some aName else none
    | none => (none : Option String)
  match check JDBC_PASSWORD_PROPERTY JDBC_RCA_PASSWORD_ALIAS with
  | some a => some a
  | none =>
    match check LDAP_MGR_PASSWORD_PROPERTY LDAP_MGR_PASSWORD_ALIAS with
    | some a => some a
    | none => check SSL_TRUSTSTORE_PASSWORD_PROPERTY SSL_TRUSTSTORE_PASSWORD_ALIAS

/-- The prompt loop of `get_original_master_key` (lines 828-863) over the
list of interactively entered candidate keys. Validation
(`read_passwd_for_alias`) runs only when an alias was found AND the
candidate key is truthy (`if alias and masterKey:`); an empty validation
result re-prompts, anything else accepts the candidate. Returns the
accepted key paired with whether any validation decryption was attempted,
or `none` when the modelled input list is exhausted without acceptance. -/
def get_original_master_key_loop (env : Env) (props : Props) :
    List String → Option (String × Bool)
  | [] => none
  | k :: rest =>
    match masterKeyCheckAlias props with
    | some a =>
      if k ≠ "" then
        if pwTruthy (read_passwd_for_alias env a (some k)).result then
          some (k, true)
        else
          match get_original_master_key_loop env props rest with
          | some kb => some (kb.1, true)
          | none => none
      else some (k, false)
    | none => some (k, false)

/-- `get_original_master_key(properties)`: the accepted key of the prompt
loop, run on the interactive inputs of the environment. -/
def get_original_master_key (env : Env) (props : Props) : Option String :=
  (get_original_master_key_loop env props env.inputKeys).map Prod.fst

/-- `decrypt_password_for_alias(properties, alias)` (lines 762-773): when
encryption is off, return the alias argument unchanged (no filesystem
probe, no subprocess); when on, use `None` as master key if a persisted
key file exists, otherwise the interactively obtained key, and delegate to
`read_passwd_for_alias`. `none` models the unaccepted interactive loop. -/
def decrypt_password_for_alias (env : Env) (props : Props)
    (aliasName : String) : Option ReadOutcome :=
  if get_is_secure props then
    match env.masterKeyFile with
    | some _ => some (read_passwd_for_alias env aliasName none)
    | none =>
      match get_original_master_key env props with
      | some k => some (read_passwd_for_alias env aliasName (some k))
      | none => none
  else some ⟨.str aliasName, false, false⟩

/-- `get_encrypted_password(alias, password, properties)` (lines 692-708):
when encryption is off, return the password; when on, obtain the master
key (from the persisted file: `None`; else interactively), PUT the secret
via `save_passwd_for_alias`, and return the plaintext password on a
nonzero (or fall-through) return and the alias string on 0. -/
def get_encrypted_password (env : Env) (aliasName password : String)
    (props : Props) : Option String :=
  if get_is_secure props then
    let keyRes : Option (Option String) :=
      match env.masterKeyFile with
      | some _ => some none
      | none => (get_original_master_key env props).map some
    match keyRes with
    | none => none
    | some mk =>
      let retCode := save_passwd_for_alias env aliasName password mk
      if retCode ≠ .int 0 then some password else some (get_alias_string aliasName)
  else some password

/-- Modelled from the spec: the `Properties` class
(`ambari_server/properties.py`) is not under src/, only its caller
`update_properties` is. Per spec 3 and 4.1 a properties file is an ordered
key-value mapping whose update primitive `process_pair` keeps the
original position of an updated key and appends new keys at the end. -/
def process_pair (ps : List (String × String)) (k v : String) :
    List (String × String) :=
  if ps.any (fun p => p.1 == k) then
    ps.map (fun p => if p.1 == k then (k, v) else p)
  else ps ++ [(k, v)]

/-- Modelled from the spec: `Properties.removeOldProp` is not under src/.
`update_properties` calls it on a key right before every `process_pair`
of that key, and the update-in-place rule of the spec (spec 4.1 and
scenario 10: an updated key keeps its original position) forces the updated key
to stay where it was — so on the ordered key-value view that
`store_ordered` writes out, `removeOldProp` must leave the entry sequence
unchanged (it only discards the remembered original raw line). -/
def removeOldProp (ps : List (String × String)) (_k : String) :
    List (String × String) := ps

/-- `update_properties(propertyMap)` (lines 1009-1032), on the ordered
key-value view of the loaded file: for each pair of `propertyMap`, a
`removeOldProp` followed by `process_pair`; then `removeOldProp` on every
loaded key absent from `propertyMap`; the result is what `store_ordered`
writes back. The surrounding file I/O (conf-file search, temp backup) is
not modelled. -/
def update_properties (fileProps propertyMap : List (String × String)) :
    List (String × String) :=
  let p1 := propertyMap.foldl
    (fun ps kv => process_pair (removeOldProp ps kv.1) kv.1 kv.2) fileProps
  (p1.map Prod.fst).foldl
    (fun ps k => if propertyMap.any (fun q => q.1 == k) then ps
                 else removeOldProp ps k) p1

/- Concrete instances used by counterexamples and witnesses. -/

/-- Properties with local persistence and an Oracle JDBC URL, no explicit
database type. -/
def c1CexProps : Props :=
  [(PERSISTENCE_TYPE_PROPERTY, "local"),
   (JDBC_URL_PROPERTY, "jdbc:oracle:thin:@myhost:1521:ambari")]

/-- Properties with local persistence and a JDBC URL matching no known
database name. -/
def c1WitnessProps : Props :=
  [(PERSISTENCE_TYPE_PROPERTY, "local"),
   (JDBC_URL_PROPERTY, "jdbc:h2:mem:ambari")]

/-- Properties with only a JDBC URL whose lowercased value contains both
postgres and mysql. -/
def c5WitnessProps : Props :=
  [(JDBC_URL_PROPERTY, "jdbc:postgresql://MySQL-host/ambari")]

/-- Properties with explicit postgres database type and local persistence. -/
def c6WitnessProps : Props :=
  [(JDBC_DATABASE_PROPERTY, "postgres"),
   (PERSISTENCE_TYPE_PROPERTY, "local")]

/-- Environment where the GET subprocess exits with code 1 after having
written `secret` into the temporary hand-off file. -/
def envReadFail : Env :=
  ⟨true, fun _ _ => ⟨1, "secret"⟩, fun _ _ _ => 0, none, []⟩

/-- Environment where the GET subprocess exits with code 2 leaving the
temporary file empty. -/
def envReadFailEmpty : Env :=
  ⟨true, fun _ _ => ⟨2, ""⟩, fun _ _ _ => 0, none, []⟩

/-- Environment with a working credential provider. -/
def envDisabled : Env :=
  ⟨true, fun _ _ => ⟨0, "pw"⟩, fun _ _ _ => 0, none, []⟩

/-- Properties with encryption explicitly disabled. -/
def c8WitnessProps : Props := [(SECURITY_IS_ENCRYPTION_ENABLED, "false")]

/-- Environment with a persisted master key whose PUT subprocess exits
with code 3. -/
def envPutFail : Env :=
  ⟨true, fun _ _ => ⟨0, ""⟩, fun _ _ _ => 3, some "master", []⟩

/-- Environment with a persisted master key whose PUT subprocess exits
with code 0. -/
def envPutOk : Env :=
  ⟨true, fun _ _ => ⟨0, ""⟩, fun _ _ _ => 0, some "master", []⟩

/-- Properties with encryption enabled. -/
def securePropsTrue : Props := [(SECURITY_IS_ENCRYPTION_ENABLED, "true")]

/-- Environment whose first interactively entered master key is the empty
string. -/
def envEmptyKey : Env :=
  ⟨true, fun _ _ => ⟨0, "pw"⟩, fun _ _ _ => 0, none, [""]⟩

/-- Properties whose database password property holds an alias-encoded
value. -/
def c10WitnessProps : Props :=
  [(JDBC_PASSWORD_PROPERTY, "$\x7balias=ambari.db.password\x7d")]

/- Helper lemmas. -/

/-- The URL branch of `get_db_type` computes the first entry of the fixed
priority list whose name occurs in the lowercased URL. -/
lemma urlChain_eq (u : String) :
    (if strContains (pyLower u.data) sdePostgres.name.data then some sdePostgres
     else if strContains (pyLower u.data) sdeOracle.name.data then some sdeOracle
     else if strContains (pyLower u.data) sdeMysql.name.data then some sdeMysql
     else if strContains (pyLower u.data) sdeMssql.name.data then some sdeMssql
     else if strContains (pyLower u.data) sdeDerby.name.data then some sdeDerby
     else if strContains (pyLower u.data) sdeSqlanywhere.name.data then some sdeSqlanywhere
     else none) = urlFirstMatch u := by
  unfold urlFirstMatch
  cases h1 : strContains (pyLower u.data) sdePostgres.name.data <;>
  cases h2 : strContains (pyLower u.data) sdeOracle.name.data <;>
  cases h3 : strContains (pyLower u.data) sdeMysql.name.data <;>
  cases h4 : strContains (pyLower u.data) sdeMssql.name.data <;>
  cases h5 : strContains (pyLower u.data) sdeDerby.name.data <;>
  cases h6 : strContains (pyLower u.data) sdeSqlanywhere.name.data <;>
  simp [List.find?, h1, h2, h3, h4, h5, h6]

/-- The head of `dropWhile p` equals a character `br` outside `p` exactly
when the list decomposes as a `p`-run followed by `br`. -/
lemma dropWhile_head_iff (p : Char → Bool) (br : Char) (hbr : p br = false)
    (l : List Char) :
    (l.dropWhile p).head? = some br ↔
      ∃ w t, l = w ++ br :: t ∧ ∀ c ∈ w, p c = true := by
  induction l with
  | nil =>
    simp only [List.dropWhile_nil, List.head?_nil]
    constructor
    · intro h; cases h
    · rintro ⟨w, t, h, -⟩
      cases w <;> simp at h
  | cons c l ih =>
    rw [List.dropWhile_cons]
    by_cases hc : p c = true
    · rw [if_pos hc, ih]
      constructor
      · rintro ⟨w, t, rfl, hall⟩
        refine ⟨c :: w, t, rfl, ?_⟩
        intro x hx
        rcases List.mem_cons.mp hx with rfl | hx
        · exact hc
        · exact hall x hx
      · rintro ⟨w, t, heq, hall⟩
        cases w with
        | nil =>
          simp only [List.nil_append, List.cons.injEq] at heq
          obtain ⟨rfl, -⟩ := heq
          rw [hc] at hbr
          cases hbr
        | cons w0 w =>
          simp only [List.cons_append, List.cons.injEq] at heq
          obtain ⟨rfl, rfl⟩ := heq
          exact ⟨w, t, rfl, fun x hx => hall x (List.mem_cons_of_mem _ hx)⟩
    · rw [if_neg hc]
      simp only [List.head?_cons, Option.some.injEq]
      constructor
      · rintro rfl
        exact ⟨[], l, rfl, by intro x hx; cases hx⟩
      · rintro ⟨w, t, heq, hall⟩
        cases w with
        | nil =>
          simp only [List.nil_append, List.cons.injEq] at heq
          exact heq.1
        | cons w0 w =>
          simp only [List.cons_append, List.cons.injEq] at heq
          obtain ⟨rfl, -⟩ := heq
          exact absurd (hall c (List.mem_cons_self c w)) hc

/-- The run test of `is_alias_string` (nonempty maximal `[\w\.]` run
followed by a closing brace) is equivalent to the existence of a
decomposition run-brace-rest. -/
lemma aliasRun_iff (l : List Char) :
    ((l.takeWhile isAliasWordChar ≠ []) ∧
      (l.dropWhile isAliasWordChar).head? = some '\x7d') ↔
      ∃ w t, l = w ++ '\x7d' :: t ∧ w ≠ [] ∧ ∀ c ∈ w, isAliasWordChar c = true := by
  have hbr : isAliasWordChar '\x7d' = false := by decide
  cases l with
  | nil =>
    simp only [List.takeWhile_nil, List.dropWhile_nil, List.head?_nil]
    constructor
    · rintro ⟨h, -⟩; exact absurd rfl h
    · rintro ⟨w, t, h, -, -⟩
      cases w <;> simp at h
  | cons c l =>
    rw [List.takeWhile_cons, List.dropWhile_cons]
    by_cases hc : isAliasWordChar c = true
    · rw [if_pos hc, if_pos hc]
      rw [dropWhile_head_iff isAliasWordChar '\x7d' hbr l]
      constructor
      · rintro ⟨-, w, t, rfl, hall⟩
        refine ⟨c :: w, t, rfl, by simp, ?_⟩
        intro x hx
        rcases List.mem_cons.mp hx with rfl | hx
        · exact hc
        · exact hall x hx
      · rintro ⟨w, t, heq, hne, hall⟩
        cases w with
        | nil => exact absurd rfl hne
        | cons w0 w =>
          simp only [List.cons_append, List.cons.injEq] at heq
          obtain ⟨rfl, rfl⟩ := heq
          exact ⟨by simp, w, t, rfl, fun x hx => hall x (List.mem_cons_of_mem _ hx)⟩
    · rw [if_neg hc, if_neg hc]
      constructor
      · rintro ⟨h, -⟩; exact absurd rfl h
      · rintro ⟨w, t, heq, hne, hall⟩
        cases w with
        | nil => exact absurd rfl hne
        | cons w0 w =>
          simp only [List.cons_append, List.cons.injEq] at heq
          obtain ⟨rfl, -⟩ := heq
          exact absurd (hall c (List.mem_cons_self c w)) hc

/- Claim theorems. -/

/-- C1 counterexample: with `server.jdbc.database` unset and
`server.persistence.type = "local"` but a JDBC URL containing `oracle`,
`get_db_type` returns the remote Oracle entry, not the embedded postgres
entry — URL matching preempts the local fallback. -/
theorem get_db_type_local_url_counterexample :
    truthy (get_property c1CexProps JDBC_DATABASE_PROPERTY) = false ∧
    get_property c1CexProps PERSISTENCE_TYPE_PROPERTY = some "local" ∧
    get_db_type c1CexProps = some sdeOracle ∧
    get_db_type c1CexProps ≠ some sdePostgresInternal := by
  decide

/-- C1 amended: with `server.jdbc.database` unset (falsy) and
`server.persistence.type = "local"`, `get_db_type` returns the
embedded/internal postgres entry provided the JDBC URL property, when set,
matches no known database name in its lowercased value. -/
theorem get_db_type_local_fallback (props : Props)
    (hdb : truthy (get_property props JDBC_DATABASE_PROPERTY) = false)
    (hpers : get_property props PERSISTENCE_TYPE_PROPERTY = some "local")
    (hurl : ∀ u, get_property props JDBC_URL_PROPERTY = some u →
      urlFirstMatch u = none) :
    get_db_type props = some sdePostgresInternal := by
  simp only [get_db_type]
  rw [hdb, hpers]
  simp only [Bool.false_eq_true, if_false, Option.isNone_none, Bool.and_true,
    Option.getD_some]
  cases hu : get_property props JDBC_URL_PROPERTY with
  | none => simp [truthy]
  | some u =>
    by_cases hne : u = ""
    · subst hne
      simp [truthy]
    · have htr : truthy (some u) = true := by simp [truthy, hne]
      rw [htr]
      simp only [Bool.true_and, if_true, Option.getD_some, urlChain_eq u, hurl u hu,
        Option.isNone_none, Bool.and_true]
      simp

/-- C1 witness: local persistence, no database type, a JDBC URL matching
no known name — the embedded postgres entry results. -/
theorem get_db_type_local_fallback_witness :
    truthy (get_property c1WitnessProps JDBC_DATABASE_PROPERTY) = false ∧
    get_property c1WitnessProps PERSISTENCE_TYPE_PROPERTY = some "local" ∧
    get_db_type c1WitnessProps = some sdePostgresInternal := by
  refine ⟨by decide, by decide, ?_⟩
  apply get_db_type_local_fallback
  · decide
  · decide
  · intro u hu
    have h2 : get_property c1WitnessProps JDBC_URL_PROPERTY
        = some "jdbc:h2:mem:ambari" := by decide
    rw [h2] at hu
    injection hu with hu
    subst hu
    decide

/-- C2 counterexample: the input starting with the alias prefix and word
characters but missing the closing brace satisfies the pattern as the
claim words it, yet `is_alias_string` rejects it — the regex also demands
a closing brace. -/
theorem is_alias_string_no_brace_counterexample :
    claimedAliasPattern "$\x7balias=abc" = true ∧
    is_alias_string "$\x7balias=abc" = false := by
  decide

/-- C2 amended: `is_alias_string` returns true iff the text begins with
the literal prefix `$\x7balias=` followed by one or more word characters
or dots followed by a closing brace, anchored at the start (trailing
characters after the closing brace are allowed); and on the input
`$\x7balias=ambari.db.password\x7d` it returns true while
`get_alias_from_alias_string` returns `ambari.db.password`. -/
theorem is_alias_string_char :
    (∀ s : String, is_alias_string s = true ↔
      ∃ w t, s.data = "$\x7balias=".data ++ (w ++ '\x7d' :: t) ∧ w ≠ [] ∧
        ∀ c ∈ w, isAliasWordChar c = true)
    ∧ is_alias_string "$\x7balias=ambari.db.password\x7d" = true
    ∧ get_alias_from_alias_string "$\x7balias=ambari.db.password\x7d"
        = "ambari.db.password" := by
  refine ⟨?_, by decide, by decide⟩
  intro s
  unfold is_alias_string
  simp only [Bool.and_eq_true, decide_eq_true_eq, beq_iff_eq,
    List.isPrefixOf_iff_prefix]
  constructor
  · rintro ⟨hpre, hrun, hhead⟩
    obtain ⟨r, hr⟩ := hpre
    have hdrop : s.data.drop 8 = r := by
      rw [← hr]
      simp
    rw [hdrop] at hrun hhead
    obtain ⟨w, t, rfl, hne, hall⟩ := (aliasRun_iff r).mp ⟨hrun, hhead⟩
    exact ⟨w, t, by rw [← hr], hne, hall⟩
  · rintro ⟨w, t, heq, hne, hall⟩
    have hpre : "$\x7balias=".data <+: s.data := ⟨w ++ '\x7d' :: t, heq.symm⟩
    have hdrop : s.data.drop 8 = w ++ '\x7d' :: t := by
      rw [heq]
      simp
    refine ⟨hpre, ?_, ?_⟩
    · rw [hdrop]
      exact ((aliasRun_iff _).mpr ⟨w, t, rfl, hne, hall⟩).1
    · rw [hdrop]
      exact ((aliasRun_iff _).mpr ⟨w, t, rfl, hne, hall⟩).2

/-- C3 counterexample: the GET subprocess exits with code 1 after writing
`secret` into the temporary file; `read_passwd_for_alias` still deletes
the file but returns the initialized empty string, not the file content. -/
theorem read_passwd_nonzero_counterexample :
    (read_passwd_for_alias envReadFail "ambari.db.password" none).tempFileRemoved
        = true ∧
    (envReadFail.getOutcome "ambari.db.password" "None").fileContent = "secret" ∧
    (read_passwd_for_alias envReadFail "ambari.db.password" none).result
        = PwResult.str "" ∧
    (read_passwd_for_alias envReadFail "ambari.db.password" none).result
        ≠ PwResult.str
            ((envReadFail.getOutcome "ambari.db.password" "None").fileContent) := by
  decide

/-- C3 amended: for every non-empty alias with a JDK found, the temporary
hand-off file is deleted before returning for every exit code of the GET
subprocess, and no hard failure is raised: the result is the file content
on exit code 0 and the initialized empty string on a nonzero exit code
(the file is not read in that case). -/
theorem read_passwd_for_alias_cleanup (env : Env) (aliasName : String)
    (mk : Option String)
    (ha : aliasName ≠ "") (hjdk : env.jdkFound = true) :
    read_passwd_for_alias env aliasName mk =
      ⟨.str (if (env.getOutcome aliasName (resolveMasterKeyArg mk)).retcode ≠ 0
             then ""
             else (env.getOutcome aliasName (resolveMasterKeyArg mk)).fileContent),
       true, true⟩ := by
  unfold read_passwd_for_alias
  simp [ha, hjdk]

/-- C3 witness: a failing GET that left the temporary file empty — the
empty string is returned and the file was removed. -/
theorem read_passwd_for_alias_cleanup_witness :
    read_passwd_for_alias envReadFailEmpty "ambari.db.password" none
      = ⟨PwResult.str "", true, true⟩ := by
  have h := read_passwd_for_alias_cleanup envReadFailEmpty "ambari.db.password"
    none (by decide) rfl
  rw [h]
  decide

/-- C4: updating key b and adding key d on a file holding keys a, b, c in
order yields key order a, b, c, d with a and c keeping value and position,
b keeping position with the new value, and d appended. -/
theorem update_properties_keeps_order (ka kb kc kd va vb vc vb2 vd : String)
    (hab : ka ≠ kb) (hac : ka ≠ kc) (had : ka ≠ kd)
    (hbc : kb ≠ kc) (hbd : kb ≠ kd) (hcd : kc ≠ kd) :
    update_properties [(ka, va), (kb, vb), (kc, vc)] [(kb, vb2), (kd, vd)] =
      [(ka, va), (kb, vb2), (kc, vc), (kd, vd)] := by
  simp [update_properties, process_pair, removeOldProp, List.foldl,
    hab, hac, had, hbc, hbd, hcd,
    Ne.symm hab, Ne.symm hac, Ne.symm had, Ne.symm hbc, Ne.symm hbd, Ne.symm hcd]

/-- C4 witness: the concrete a, b, c file updated at b with d added. -/
theorem update_properties_keeps_order_witness :
    update_properties [("a", "1"), ("b", "2"), ("c", "3")]
        [("b", "9"), ("d", "4")] =
      [("a", "1"), ("b", "9"), ("c", "3"), ("d", "4")] := by
  have h := update_properties_keeps_order "a" "b" "c" "d" "1" "2" "3" "9" "4"
    (by decide) (by decide) (by decide) (by decide) (by decide) (by decide)
  exact h

/-- C5: with no explicit database type and a truthy JDBC URL with at least
one known database name in its lowercased value, `get_db_type` returns
the entry of the first matching name in the fixed priority order
postgres, oracle, mysql, mssql, derby, sqlanywhere. -/
theorem get_db_type_url_priority (props : Props) (u : String)
    (hdb : truthy (get_property props JDBC_DATABASE_PROPERTY) = false)
    (hurl : get_property props JDBC_URL_PROPERTY = some u)
    (hne : u ≠ "")
    (hmatch : (urlFirstMatch u).isSome = true) :
    get_db_type props = urlFirstMatch u := by
  have hnone : (urlFirstMatch u).isNone = false := by
    cases h : urlFirstMatch u
    · rw [h] at hmatch; cases hmatch
    · rfl
  simp only [get_db_type]
  rw [hdb, hurl]
  simp only [Bool.false_eq_true, if_false, Option.isNone_none, Bool.and_true,
    Option.getD_some]
  have htr : truthy (some u) = true := by simp [truthy, hne]
  rw [htr]
  simp only [Bool.true_and, if_true, urlChain_eq u, hnone, Bool.and_false,
    Bool.false_eq_true, if_false]

/-- C5 witness: a URL containing both postgres and mysql resolves to the
postgres entry. -/
theorem get_db_type_url_priority_witness :
    strContains (pyLower "jdbc:postgresql://MySQL-host/ambari".data)
        sdePostgres.name.data = true ∧
    strContains (pyLower "jdbc:postgresql://MySQL-host/ambari".data)
        sdeMysql.name.data = true ∧
    get_db_type c5WitnessProps = some sdePostgres := by
  refine ⟨by decide, by decide, ?_⟩
  have h := get_db_type_url_priority c5WitnessProps
    "jdbc:postgresql://MySQL-host/ambari" (by decide) (by decide) (by decide)
    (by decide)
  rw [h]
  decide

/-- C6: explicit database type `postgres` with local persistence yields
the embedded/internal postgres entry, whose kind is internal — never the
remote postgres entry. (In the model, `ServerDatabases.match` iterates in
class declaration order and returns the remote postgres entry, which the
local-persistence check then replaces; had it returned the internal entry
directly — class-dictionary iteration order is unspecified in Python 2 —
the check would leave that internal entry unchanged, so the result is the
internal entry either way.) -/
theorem get_db_type_postgres_local_internal (props : Props)
    (hdb : get_property props JDBC_DATABASE_PROPERTY = some "postgres")
    (hpers : get_property props PERSISTENCE_TYPE_PROPERTY = some "local") :
    get_db_type props = some sdePostgresInternal ∧
      sdePostgresInternal.dbtype = ServerDatabaseType.internal := by
  refine ⟨?_, rfl⟩
  have hm : serverDatabasesMatch "postgres" = some sdePostgres := by decide
  simp only [get_db_type]
  rw [hdb, hpers]
  simp [truthy, hm, entryEqEntry, sdePostgres]

/-- C6 witness: the concrete postgres/local properties map. -/
theorem get_db_type_postgres_local_internal_witness :
    get_db_type c6WitnessProps = some sdePostgresInternal ∧
      sdePostgresInternal.dbtype = ServerDatabaseType.internal :=
  get_db_type_postgres_local_internal c6WitnessProps (by decide) (by decide)

/-- C7: for every alias name of word characters and dots, decoding the
encoding returns the name: `get_alias_from_alias_string` strips exactly
the 8-character prefix and the closing brace that `get_alias_string`
adds. -/
theorem alias_codec_roundtrip (name : String)
    (h : ∀ c ∈ name.data, isAliasWordChar c = true) :
    get_alias_from_alias_string (get_alias_string name) = name := by
  unfold get_alias_string get_alias_from_alias_string
  have hd : ("$\x7balias=" ++ name ++ "\x7d").data
      = "$\x7balias=".data ++ (name.data ++ ['\x7d']) := by
    simp [String.data_append]
  rw [hd]
  have h8 : ("$\x7balias=".data ++ (name.data ++ ['\x7d'])).drop 8
      = name.data ++ ['\x7d'] := by
    simp
  rw [h8, List.dropLast_concat]

/-- C7 witness: the round trip on `ambari.db.password`. -/
theorem alias_codec_roundtrip_witness :
    (∀ c ∈ "ambari.db.password".data, isAliasWordChar c = true) ∧
    get_alias_from_alias_string (get_alias_string "ambari.db.password")
      = "ambari.db.password" :=
  ⟨by decide, alias_codec_roundtrip "ambari.db.password" (by decide)⟩

/-- C8: when the encryption-enabled property is absent or its value does
not case-insensitively equal `true`, `decrypt_password_for_alias` returns
its alias argument unchanged with no subprocess call; and `get_is_secure`
is true exactly when the property value lowercases to `true`. -/
theorem decrypt_disabled_and_secure_iff (props : Props) (aliasName : String)
    (env : Env)
    (hdis : ∀ v, get_property props SECURITY_IS_ENCRYPTION_ENABLED = some v →
      String.mk (pyLower v.data) ≠ "true") :
    decrypt_password_for_alias env props aliasName =
        some ⟨.str aliasName, false, false⟩ ∧
      ∀ ps : Props, (get_is_secure ps = true ↔
        ∃ v, get_property ps SECURITY_IS_ENCRYPTION_ENABLED = some v ∧
          String.mk (pyLower v.data) = "true") := by
  constructor
  · have hsec : get_is_secure props = false := by
      unfold get_is_secure
      cases hv : get_property props SECURITY_IS_ENCRYPTION_ENABLED with
      | none => rfl
      | some s => simp [hdis s hv]
    unfold decrypt_password_for_alias
    rw [hsec]
    simp
  · intro ps
    unfold get_is_secure
    cases hv : get_property ps SECURITY_IS_ENCRYPTION_ENABLED with
    | none => simp
    | some s =>
      simp only [Bool.and_eq_true, decide_eq_true_eq, beq_iff_eq]
      constructor
      · rintro ⟨hne, htrue⟩
        exact ⟨s, rfl, htrue⟩
      · rintro ⟨v, hv2, htrue⟩
        cases hv2
        refine ⟨?_, htrue⟩
        intro hempty
        subst hempty
        simp [pyLower] at htrue

/-- C8 witness: encryption disabled by the value `false` returns the alias
untouched with no subprocess; `get_is_secure` accepts the value `TRUE`. -/
theorem decrypt_disabled_and_secure_iff_witness :
    decrypt_password_for_alias envDisabled c8WitnessProps "ambari.db.password"
        = some ⟨PwResult.str "ambari.db.password", false, false⟩ ∧
    get_is_secure [(SECURITY_IS_ENCRYPTION_ENABLED, "TRUE")] = true := by
  have hd : ∀ v, get_property c8WitnessProps SECURITY_IS_ENCRYPTION_ENABLED
      = some v → String.mk (pyLower v.data) ≠ "true" := by
    intro v hv
    have h2 : get_property c8WitnessProps SECURITY_IS_ENCRYPTION_ENABLED
        = some "false" := by decide
    rw [h2] at hv
    injection hv with hv
    subst hv
    decide
  have h := decrypt_disabled_and_secure_iff c8WitnessProps "ambari.db.password"
    envDisabled hd
  exact ⟨h.1, (h.2 [(SECURITY_IS_ENCRYPTION_ENABLED, "TRUE")]).mpr
    ⟨"TRUE", by decide, by decide⟩⟩

/-- C9: with encryption enabled, a persisted master key, a nonempty alias
and password and a JDK found, `get_encrypted_password` returns the
plaintext password when the PUT exit code is nonzero and the alias string
when it is zero. -/
theorem get_encrypted_password_put_outcome (env : Env)
    (aliasName password : String) (props : Props)
    (hsec : get_is_secure props = true) (ha : aliasName ≠ "")
    (hpw : password ≠ "") (hjdk : env.jdkFound = true)
    (hkf : env.masterKeyFile.isSome = true) :
    get_encrypted_password env aliasName password props =
      some (if env.putRetcode aliasName password "None" ≠ 0 then password
            else get_alias_string aliasName) := by
  obtain ⟨f, hf⟩ := Option.isSome_iff_exists.mp hkf
  simp only [get_encrypted_password]
  rw [hsec, hf]
  simp only [save_passwd_for_alias, resolveMasterKeyArg]
  simp [ha, hpw, hjdk]
  split <;> simp_all

/-- C9 witness: PUT exit code 3 keeps the plaintext, exit code 0 gives the
alias string. -/
theorem get_encrypted_password_put_outcome_witness :
    get_encrypted_password envPutFail "ambari.db.password" "s3cret"
        securePropsTrue = some "s3cret" ∧
    get_encrypted_password envPutOk "ambari.db.password" "s3cret"
        securePropsTrue = some "$\x7balias=ambari.db.password\x7d" := by
  constructor
  · have h := get_encrypted_password_put_outcome envPutFail "ambari.db.password"
      "s3cret" securePropsTrue (by decide) (by decide) (by decide) rfl rfl
    rw [h]
    decide
  · have h := get_encrypted_password_put_outcome envPutOk "ambari.db.password"
      "s3cret" securePropsTrue (by decide) (by decide) (by decide) rfl rfl
    rw [h]
    decide

/-- C10: when the first interactively entered candidate master key is the
empty string, the validation decryption is skipped (the guard needs both a
found alias and a truthy key) and the empty key is accepted and returned
on the first iteration — for every properties map, in particular when one
of the three checked password properties holds an alias-encoded value. -/
theorem empty_master_key_accepted (env : Env) (props : Props)
    (rest : List String) (hin : env.inputKeys = "" :: rest) :
    get_original_master_key_loop env props ("" :: rest) = some ("", false) ∧
      get_original_master_key env props = some "" := by
  have hloop : get_original_master_key_loop env props ("" :: rest)
      = some ("", false) := by
    unfold get_original_master_key_loop
    cases masterKeyCheckAlias props <;> simp
  refine ⟨hloop, ?_⟩
  unfold get_original_master_key
  rw [hin, hloop]
  rfl

/-- C10 witness: the database password property holds an alias-encoded
value, yet the empty first input is accepted without validation. -/
theorem empty_master_key_accepted_witness :
    masterKeyCheckAlias c10WitnessProps = some JDBC_RCA_PASSWORD_ALIAS ∧
    get_original_master_key envEmptyKey c10WitnessProps = some "" := by
  refine ⟨by decide, ?_⟩
  exact (empty_master_key_accepted envEmptyKey c10WitnessProps [] rfl).2

end ServerConfiguration
